import Mathlib

/-!
Verification development for the LMS video extractor (`main.py`).

The definitions below are a shallow embedding of the program's pure logic:
the listing-entry resolver `parse_li`, the ledger load/save functions
(`load_downloaded` / `save_downloaded`), the extraction step `extract_rar`,
and the fetch/retry orchestration of `download_and_extract` and
`popup_download_task`.  Side-effecting collaborators (the browser, the
filesystem, the external extractor) are modelled by explicit environment
records whose boolean/option fields record the outcome of each external
call, exactly mirroring the branch structure of the source.
-/

namespace LMS

/-! ## Character classes and numeric conversion

Python's `re` module matches `\d` against any Unicode decimal digit and
`\s` against whitespace.  The inputs of this program contain ASCII digits,
Arabic-Indic digits (U+0660..U+0669), Extended Arabic-Indic (Persian)
digits (U+06F0..U+06F9) and ASCII whitespace, so the classes are embedded
restricted to those ranges. -/

def isPyDigit (c : Char) : Bool :=
  ('0' ≤ c ∧ c ≤ '9') ∨ ('٠' ≤ c ∧ c ≤ '٩') ∨ ('۰' ≤ c ∧ c ≤ '۹')

def isPySpace (c : Char) : Bool :=
  c = ' ' ∨ c = '\t' ∨ c = '\n' ∨ c = '\r' ∨ c = '\x0b' ∨ c = '\x0c'

/-- Decimal value of one digit character, as Python's `int()` sees it. -/
def pyDigitVal (c : Char) : Nat :=
  if '0' ≤ c ∧ c ≤ '9' then c.toNat - '0'.toNat
  else if '٠' ≤ c ∧ c ≤ '٩' then c.toNat - '٠'.toNat
  else c.toNat - '۰'.toNat

/-- Python `int(s)` on a string of decimal digits (any Unicode digit range). -/
def pyInt (s : String) : Nat :=
  s.toList.foldl (fun a c => 10 * a + pyDigitVal c) 0

/-- Python f-string `f"{n:02d}"` for a natural number. -/
def pad2 (n : Nat) : String :=
  if n < 10 then "0" ++ toString n else toString n

/-! ## List-of-characters utilities (Python string operations) -/

/-- `needle` is a prefix of `hay` (helper for substring tests). -/
def startsWithL : List Char → List Char → Bool
  | [], _ => true
  | _ :: _, [] => false
  | a :: as, b :: bs => a = b ∧ startsWithL as bs

/-- Python `needle in hay` (contiguous substring test). -/
def containsL (needle : List Char) : List Char → Bool
  | [] => startsWithL needle []
  | c :: rest => startsWithL needle (c :: rest) ∨ containsL needle rest

/-- Python `s.split('،')`: split on the Arabic comma, keeping empty pieces. -/
def splitComma : List Char → List (List Char)
  | [] => [[]]
  | c :: rest =>
    match splitComma rest with
    | [] => []
    | h :: t => if c = '،' then [] :: h :: t else (c :: h) :: t

/-- Python `s.strip()` restricted to the whitespace characters above. -/
def pyStrip (cs : List Char) : List Char :=
  ((cs.dropWhile isPySpace).reverse.dropWhile isPySpace).reverse

/-- Python `s.replace(pat, rep)` (all non-overlapping occurrences, left to
right); `fuel` bounds the recursion and is instantiated with `s.length`,
which suffices because `pat` is never empty at the call sites. -/
def replaceAllAux (pat rep : List Char) : Nat → List Char → List Char
  | 0, cs => cs
  | _ + 1, [] => []
  | fuel + 1, c :: rest =>
    if startsWithL pat (c :: rest) then
      rep ++ replaceAllAux pat rep fuel ((c :: rest).drop pat.length)
    else c :: replaceAllAux pat rep fuel rest

def replaceAll (s pat rep : String) : String :=
  (replaceAllAux pat.toList rep.toList s.toList.length s.toList).asString

/-- Lookup in an association list with a default: Python `dict.get(k, d)`. -/
def lookupD {β : Type} (table : List (String × β)) (k : String) (d : β) : β :=
  match table.find? (fun kv => kv.1 == k) with
  | some kv => kv.2
  | none => d

/-! ## Fixed tables from `main.py` -/

def BASE_URL : String := "https://lms.sbu.ac.ir"

/-- `PERIOD_OFFSET`: the day-period to hour-offset table. -/
def PERIOD_OFFSET : List (String × Nat) :=
  [("صبح", 0), ("ظهر", 12), ("عصر", 12), ("شب", 12)]

/-- `PERSIAN_MONTHS`: Persian month name to zero-padded month number. -/
def PERSIAN_MONTHS : List (String × String) :=
  [("فروردین", "01"), ("اردیبهشت", "02"), ("خرداد", "03"), ("تیر", "04"),
   ("مرداد", "05"), ("شهریور", "06"), ("مهر", "07"), ("آبان", "08"),
   ("آذر", "09"), ("دی", "10"), ("بهمن", "11"), ("اسفند", "12")]

/-! ## The regex searches used by `parse_li`

Each Python `re.search` is embedded as a leftmost-match scanner.  For the
patterns at hand, greedy character-class repetition followed by a character
outside the class needs no backtracking (shrinking the repetition always
places a character of the class where the follow-up constraint requires one
outside it), so maximal-munch scanning is exact; the one genuinely
backtracking point, `[^>]+` in the anchor pattern, is embedded by trying
split points longest-first exactly as the regex engine does. -/

/-- The tail check of `<a[^>]+href=["\']([^"\']+)["\'][^>]*>.*?آفلاین`
starting right after the `[^>]+` part: literal `href=`, an opening quote,
the captured `[^"\']+` group, a closing quote, `[^>]*`, `>`, and then
(`.*?` with `re.S`) the word `آفلاین` somewhere later. -/
def hrefCheckTail (tail : List Char) : Option String :=
  if startsWithL "href=".toList tail then
    match tail.drop 5 with
    | q :: t2 =>
      if q = '"' ∨ q = '\'' then
        let content := t2.takeWhile (fun c => c ≠ '"' ∧ c ≠ '\'')
        let t3 := t2.dropWhile (fun c => c ≠ '"' ∧ c ≠ '\'')
        if content.isEmpty then none
        else
          match t3 with
          | q2 :: t4 =>
            if q2 = '"' ∨ q2 = '\'' then
              match t4.dropWhile (fun c => c ≠ '>') with
              | '>' :: t5 =>
                if containsL "آفلاین".toList t5 then some content.asString else none
              | _ => none
            else none
          | [] => none
      else none
    | [] => none
  else none

/-- Try the split points for `[^>]+`, longest first (greedy backtracking). -/
def hrefSplits (rest : List Char) : Nat → Option String
  | 0 => none
  | l + 1 =>
    match hrefCheckTail (rest.drop (l + 1)) with
    | some s => some s
    | none => hrefSplits rest l

/-- Match the anchor pattern anchored at the current position. -/
def hrefMatchAt : List Char → Option String
  | '<' :: 'a' :: rest =>
    hrefSplits rest (rest.takeWhile (fun c => c ≠ '>')).length
  | _ => none

/-- `re.search` of the anchor pattern: leftmost matching position wins;
returns the captured href (group 1). -/
def hrefSearch : List Char → Option String
  | [] => none
  | c :: rest =>
    match hrefMatchAt (c :: rest) with
    | some s => some s
    | none => hrefSearch rest

/-- `re.findall(r"\(([^)]+)\)", s)`: all non-overlapping parenthesized
groups with non-empty bodies, leftmost first.  `fuel` is instantiated with
the input length, which bounds the recursion since every step consumes at
least one character. -/
def findParensAux : Nat → List Char → List String
  | 0, _ => []
  | _ + 1, [] => []
  | fuel + 1, c :: rest =>
    if c = '(' then
      let content := rest.takeWhile (fun x => x ≠ ')')
      match rest.dropWhile (fun x => x ≠ ')') with
      | ')' :: tail =>
        if content.isEmpty then findParensAux fuel rest
        else content.asString :: findParensAux fuel tail
      | _ => findParensAux fuel rest
    else findParensAux fuel rest

def findParens (cs : List Char) : List String := findParensAux cs.length cs

/-- Match `(\d+)\s+(\S+)\s+(\d+)` anchored at the current position. -/
def dateMatchAt (cs : List Char) : Option (String × String × String) :=
  let d1 := cs.takeWhile isPyDigit
  let r1 := cs.dropWhile isPyDigit
  if d1.isEmpty then none
  else
    let s1 := r1.takeWhile isPySpace
    let r2 := r1.dropWhile isPySpace
    if s1.isEmpty then none
    else
      let w := r2.takeWhile (fun c => ¬ isPySpace c)
      let r3 := r2.dropWhile (fun c => ¬ isPySpace c)
      if w.isEmpty then none
      else
        let s2 := r3.takeWhile isPySpace
        let r4 := r3.dropWhile isPySpace
        if s2.isEmpty then none
        else
          let d2 := r4.takeWhile isPyDigit
          if d2.isEmpty then none
          else some (d1.asString, w.asString, d2.asString)

/-- `re.search(r"(\d+)\s+(\S+)\s+(\d+)", s)`. -/
def searchDate : List Char → Option (String × String × String)
  | [] => none
  | c :: rest =>
    match dateMatchAt (c :: rest) with
    | some r => some r
    | none => searchDate rest

/-- Match `(\d+):(\d+)\s+(\S+)` anchored at the current position. -/
def timeMatchAt (cs : List Char) : Option (String × String × String) :=
  let d1 := cs.takeWhile isPyDigit
  let r1 := cs.dropWhile isPyDigit
  if d1.isEmpty then none
  else
    match r1 with
    | ':' :: r2 =>
      let d2 := r2.takeWhile isPyDigit
      let r3 := r2.dropWhile isPyDigit
      if d2.isEmpty then none
      else
        let s1 := r3.takeWhile isPySpace
        let r4 := r3.dropWhile isPySpace
        if s1.isEmpty then none
        else
          let w := r4.takeWhile (fun c => ¬ isPySpace c)
          if w.isEmpty then none else some (d1.asString, d2.asString, w.asString)
    | _ => none

/-- `re.search(r"(\d+):(\d+)\s+(\S+)", s)`. -/
def searchTime : List Char → Option (String × String × String)
  | [] => none
  | c :: rest =>
    match timeMatchAt (c :: rest) with
    | some r => some r
    | none => searchTime rest

/-! ## `parse_li` -/

/-- `if href.startswith('/'): href = BASE_URL + href`. -/
def absHref (href : String) : String :=
  match href.toList with
  | '/' :: _ => BASE_URL ++ href
  | _ => href

/-- The f-string `f"{idx:02d}_{year}-{mon}-{day:02d}_{h:02d}-{minute:02d}.rar"`
assembled by `parse_li` (`year` and `mon` are carried as raw strings,
day/hour/minute as converted integers, exactly as in the source). -/
def mkFilename (idx : Nat) (year mon : String) (day h minute : Nat) : String :=
  pad2 idx ++ "_" ++ year ++ "-" ++ mon ++ "-" ++ pad2 day ++ "_" ++
    pad2 h ++ "-" ++ pad2 minute ++ ".rar"

/-- The scan of `all_parens` for the first group containing a Persian month
name, followed by split on `،` and per-part `strip()`. -/
def findDt (parens : List String) : Option (List String) :=
  (parens.find? (fun part =>
      PERSIAN_MONTHS.any (fun kv => containsL kv.1.toList part.toList))).map
    (fun p => (splitComma p.toList).map (fun q => (pyStrip q).asString))

/-- `parse_li(li_html, idx)` from `main.py`: extract the offline link and
build the deterministic archive filename from the parenthesized Persian
date/time group. -/
def parse_li (li_html : String) (idx : Nat) : Option (String × String) :=
  match hrefSearch li_html.toList with
  | none => none
  | some href0 =>
    match findDt (findParens li_html.toList) with
    | none => none
    | some dt_parts =>
      if dt_parts.isEmpty ∨ dt_parts.length < 3 then none
      else
        let date_part := dt_parts.getD 1 ""
        let time_part := dt_parts.getD 2 ""
        match searchDate date_part.toList with
        | none => none
        | some (day, mon_name, year) =>
          let mon := lookupD PERSIAN_MONTHS mon_name "00"
          match searchTime time_part.toList with
          | none => none
          | some (hour, minute, period) =>
            let h := pyInt hour % 12 + lookupD PERIOD_OFFSET period 0
            some (absHref href0,
                  mkFilename idx year mon (pyInt day) h (pyInt minute))

/-! ## The ledger file: `load_downloaded` / `save_downloaded`

`downloaded.json` is a JSON object keyed by folder name.  Values are
either a bare array of media names (legacy shape) or an object with the
keys `rars`, `mp4s`, `download_folder`, `extract_folder`.  JSON objects
are modelled as association lists, which preserves the file order that
Python dict iteration exposes. -/

inductive JVal where
  | str (s : String)
  | arr (xs : List String)
  | obj (fields : List (String × JVal))

/-- `isinstance(v, list)` on a loaded JSON value. -/
def JVal.isArr : JVal → Bool
  | .arr _ => true
  | _ => false

/-- The upgraded entry built by the migration loop in `load_downloaded`:
`{"rars": [], "mp4s": v, "download_folder": "", "extract_folder": ""}`. -/
def migrate_entry (v : JVal) : JVal :=
  .obj [("rars", .arr []), ("mp4s", v),
        ("download_folder", .str ""), ("extract_folder", .str "")]

/-- `load_downloaded` from `main.py`, applied to the parsed JSON document:
if the mapping is non-empty and its first value (in iteration order) is a
bare list, every entry is migrated to the new shape; otherwise the data is
returned unchanged. -/
def load_downloaded (data : List (String × JVal)) : List (String × JVal) :=
  match data with
  | [] => data
  | (_, v) :: _ =>
    if v.isArr then data.map (fun kv => (kv.1, migrate_entry kv.2))
    else data

/-- Serialization of `json.dump(..., ensure_ascii=False, indent=2)`.
Only its shape matters for the persistence claims; keys and strings in the
ledger need no escaping. -/
def jspaces (n : Nat) : String := (List.replicate n ' ').asString

mutual
def jdumpVal : Nat → JVal → String
  | _, .str s => "\"" ++ s ++ "\""
  | _, .arr [] => "[]"
  | lvl, .arr (x :: xs) =>
    "[\n" ++ jdumpArr (lvl + 1) (x :: xs) ++ "\n" ++ jspaces (2 * lvl) ++ "]"
  | _, .obj [] => "\x7b\x7d"
  | lvl, .obj (f :: fs) =>
    "\x7b\n" ++ jdumpObj (lvl + 1) (f :: fs) ++ "\n" ++ jspaces (2 * lvl) ++ "\x7d"

def jdumpArr : Nat → List String → String
  | _, [] => ""
  | lvl, [x] => jspaces (2 * lvl) ++ "\"" ++ x ++ "\""
  | lvl, x :: y :: xs =>
    jspaces (2 * lvl) ++ "\"" ++ x ++ "\"" ++ ",\n" ++ jdumpArr lvl (y :: xs)

def jdumpObj : Nat → List (String × JVal) → String
  | _, [] => ""
  | lvl, [(k, v)] => jspaces (2 * lvl) ++ "\"" ++ k ++ "\": " ++ jdumpVal lvl v
  | lvl, (k, v) :: f :: fs =>
    jspaces (2 * lvl) ++ "\"" ++ k ++ "\": " ++ jdumpVal lvl v ++ ",\n" ++
      jdumpObj lvl (f :: fs)
end

/-- The byte sequence `save_downloaded` writes to `downloaded.json`. -/
def save_downloaded (d : List (String × JVal)) : List Char :=
  (jdumpVal 0 (.obj d)).toList

/-- Crash model of `save_downloaded`: the function opens the target file
with mode `'w'` — truncating it — and then writes the serialization left to
right, so after a crash having written `k` characters the file holds
exactly the first `k` characters of the new serialization (the previous
content is already gone). -/
def save_downloaded_crash (d : List (String × JVal)) (k : Nat) : List Char :=
  (save_downloaded d).take k

/-! ## `extract_rar` -/

/-- `pathlib.PurePath.stem`: the final component without its last suffix
(`name[:i]` when `i = name.rfind('.')` satisfies `0 < i < len(name) - 1`). -/
def pyStem (name : String) : String :=
  let cs := name.toList
  match (cs.enum.filter (fun p => p.2 = '.')).getLast? with
  | some (i, _) =>
    if 0 < i ∧ i < cs.length - 1 then (cs.take i).asString else name
  | none => name

/-- Environment for one `extract_rar` call: which extractor binaries are on
the PATH, whether they succeed, whether the deterministic target already
exists, and which `.mp4` files `rglob` finds in the scratch directory. -/
structure XEnv where
  targetExists : Bool
  sevenZipFound : Bool
  sevenZipOk : Bool
  unrarFound : Bool
  unrarOk : Bool
  tmpMp4s : List String
deriving DecidableEq

inductive XErr where
  | toolFailed
  | noMedia
deriving DecidableEq

/-- Result of `extract_rar`: the returned target path (components) or the
raised error, together with the number of extractor processes invoked. -/
structure XOut where
  result : Except XErr (List String)
  toolCalls : Nat

/-- `extract_rar(rar_path, output_dir)` from `main.py`.  `outDir` is the
destination directory as path components.  Both platform branches run the
same 7z-then-unrar sequence, modelled once. -/
def extract_rar (env : XEnv) (rarName : String) (outDir : List String) : XOut :=
  let target := outDir ++ [pyStem rarName ++ ".mp4"]
  if env.targetExists then ⟨.ok target, 0⟩
  else
    let firstOk := env.sevenZipFound ∧ env.sevenZipOk
    let calls1 := if env.sevenZipFound then 1 else 0
    let tryUnrar := ¬ firstOk ∧ env.unrarFound
    let success := firstOk ∨ (tryUnrar ∧ env.unrarOk)
    let calls := calls1 + (if tryUnrar then 1 else 0)
    if ¬ success then ⟨.error .toolFailed, calls⟩
    else
      match env.tmpMp4s with
      | [] => ⟨.error .noMedia, calls⟩
      | _ :: _ => ⟨.ok target, calls⟩

/-! ## The fetch attempt, the retry loop, and the two download paths

A runtime ledger entry `downloaded[folder_name]` as the orchestration code
manipulates it. -/

structure Entry where
  rars : List String
  mp4s : List String
  download_folder : String
  extract_folder : String
deriving DecidableEq

/-- Outcomes of the external calls inside one direct-download attempt
(the body of the `for attempt in range(max_retries)` loop in
`download_and_extract`).  `none` means the call succeeded; `some r` means
it raised with message `r`. -/
structure TacticEnv where
  /-- `dl_page.goto(href)` -/
  gotoErr : Option String
  /-- the page body contains the "being prepared" signal -/
  notReady : Bool
  /-- `trigger_download_on_page(dl_page, rar_path)` — saves the bytes on success -/
  trigger1 : Option String
  /-- else-branch query for an `آفلاین` anchor: present? its `href` attribute -/
  elseAnchor : Option (Option String)
  /-- `dl_page.goto(href2)` -/
  gotoAltErr : Option String
  /-- second `trigger_download_on_page(dl_page, rar_path)` — saves on success -/
  trigger2 : Option String
  /-- the page has no anchors at all -/
  anchorsEmpty : Bool
  /-- `expect_download` + click on the first anchor (does NOT save to `rar_path`) -/
  clickErr : Option String
  /-- except-branch query finds a `لینک آفلاین` anchor -/
  exceptAnchor : Bool
  /-- `expect_popup` + click -/
  popupErr : Option String
  /-- `trigger_download_on_page(popup, rar_path)` — saves on success -/
  triggerPopup : Option String
deriving DecidableEq

inductive AttemptOutcome where
  | notReadyRet
  | ok
  | raised (reason : String)
deriving DecidableEq

/-- The anchors-fallback at the bottom of the else branch (`anchors_any`). -/
def fallbackAnchors (t : TacticEnv) (saved : Bool) : AttemptOutcome × Bool :=
  if t.anchorsEmpty then
    (.raised "Could not find downloadable link on page", saved)
  else
    match t.clickErr with
    | none => (.ok, saved)
    | some r => (.raised r, saved)

/-- One attempt of the direct-download loop.  The boolean records whether
some `trigger_download_on_page` call has saved the archive bytes to
`rar_path` by the time the attempt ends. -/
def attemptRun (t : TacticEnv) : AttemptOutcome × Bool :=
  match t.gotoErr with
  | some r => (.raised r, false)
  | none =>
    if t.notReady then (.notReadyRet, false)
    else
      match t.trigger1 with
      | none =>
        -- try-block succeeded: bytes saved; the else branch then searches
        -- for a secondary offline link
        match t.elseAnchor with
        | none => (.raised "Could not find downloadable link on page", true)
        | some none => fallbackAnchors t true
        | some (some h2) =>
          -- Python: `if href2 and href2.startswith('http')`
          if startsWithL "http".toList h2.toList then
            match t.gotoAltErr with
            | some r => (.raised r, true)
            | none =>
              match t.trigger2 with
              | none => (.ok, true)
              | some r => (.raised r, true)
          else fallbackAnchors t true
      | some r1 =>
        -- except branch: follow a لینک آفلاین anchor into a popup
        if t.exceptAnchor then
          match t.popupErr with
          | some r => (.raised r, false)
          | none =>
            match t.triggerPopup with
            | none => (.ok, true)
            | some r => (.raised r, false)
        else (.raised r1, false)  -- bare `raise`: the original exception

/-- Page open/close events on the attempt pages (`dl_page`). -/
inductive Ev where
  | openPage (attempt : Nat)
  | closePage (attempt : Nat)
deriving DecidableEq

inductive RetryRes where
  | notReady
  | downloaded (saved : Bool)
  | err (reason : String)
deriving DecidableEq

/-- The `for attempt in range(max_retries)` loop with its
`except`/`finally` structure: the second `Nat` is the number of attempts
still allowed after this one (`max_retries - 1 - a`, so `0` means
`attempt == max_retries - 1` and the exception is re-raised); the page is
opened before the try block and closed in `finally` before the next
attempt begins. -/
def runRetryAux (env : Nat → TacticEnv) : Nat → Nat → List Ev × RetryRes
  | _, 0 => ([], .err "")
  | a, fuel + 1 =>
    let t := env a
    let tr := [Ev.openPage a, Ev.closePage a]
    match (attemptRun t).1 with
    | .notReadyRet => (tr, .notReady)
    | .ok => (tr, .downloaded (attemptRun t).2)
    | .raised r =>
      if fuel = 0 then (tr, .err r)
      else (tr ++ (runRetryAux env (a + 1) fuel).1,
            (runRetryAux env (a + 1) fuel).2)

/-- The whole retry loop of `download_and_extract`: `max_retries = 3`. -/
def download_retry (env : Nat → TacticEnv) : List Ev × RetryRes :=
  runRetryAux env 0 3

/-- Environment of one `download_and_extract` call. -/
structure DLEnv where
  /-- `(extracted_dir / mp4_filename).exists()` at entry -/
  mp4Exists : Bool
  attempts : Nat → TacticEnv
  xenv : XEnv
  extractDir : List String
  /-- `(extracted_dir / mp4_filename).exists()` after extraction -/
  mp4ExistsAfter : Bool

inductive DLRes where
  | returned
  | notReady
  | raised (reason : String)
deriving DecidableEq

def xerrStr : XErr → String
  | .toolFailed => "Failed to extract"
  | .noMedia => "No .mp4 file found"

structure DLOut where
  entry : Entry
  saves : List Entry
  res : DLRes
deriving DecidableEq

/-- `if filename not in downloaded[folder]["rars"]: append` — the entry
after the add-if-absent archive registration. -/
def rarsUpdated (e : Entry) (filename : String) : Entry :=
  if filename ∈ e.rars then e else { e with rars := e.rars ++ [filename] }

/-- The `save_downloaded` snapshots produced by the archive registration
(one save when something was appended, none otherwise). -/
def rarsSaves (e : Entry) (filename : String) : List Entry :=
  if filename ∈ e.rars then [] else [rarsUpdated e filename]

/-- `downloaded[folder]["mp4s"].append(mp4)` — the entry after the media
registration. -/
def mp4sUpdated (e : Entry) (mp4 : String) : Entry :=
  { e with mp4s := e.mp4s ++ [mp4] }

/-- `download_and_extract` from `main.py` as a transformer of the ledger
entry for `folder_name`: `saves` lists the snapshots passed to
`save_downloaded`, in order. -/
def download_and_extract (denv : DLEnv) (e : Entry) (filename mp4 : String) :
    DLOut :=
  if denv.mp4Exists then
    if mp4 ∈ e.mp4s then ⟨e, [], .returned⟩
    else ⟨mp4sUpdated e mp4, [mp4sUpdated e mp4], .returned⟩
  else
    match (download_retry denv.attempts).2 with
    | .notReady => ⟨e, [], .notReady⟩
    | .err r => ⟨e, [], .raised r⟩
    | .downloaded _ =>
      match (extract_rar denv.xenv filename denv.extractDir).result with
      | .error err =>
        ⟨rarsUpdated e filename, rarsSaves e filename, .raised (xerrStr err)⟩
      | .ok _ =>
        if denv.mp4ExistsAfter then
          if mp4 ∈ (rarsUpdated e filename).mp4s then
            ⟨rarsUpdated e filename, rarsSaves e filename, .returned⟩
          else
            ⟨mp4sUpdated (rarsUpdated e filename) mp4,
             rarsSaves e filename ++ [mp4sUpdated (rarsUpdated e filename) mp4],
             .returned⟩
        else ⟨rarsUpdated e filename, rarsSaves e filename, .returned⟩

/-- Environment of one `popup_download_task` call. -/
structure PEnv where
  /-- result of `parse_li` on the item's fragment -/
  parsed : Option (String × String)
  /-- the popup click plus `trigger_download_on_page(popup, ...)`; `none`
  means the bytes were saved -/
  popupFetch : Option String
  xenv : XEnv
  extractDir : List String
  /-- `(course_dir / mp4_filename_local).exists()` after extraction -/
  mp4ExistsAfter : Bool

structure POut where
  entry : Entry
  saves : List Entry
deriving DecidableEq

/-- `popup_download_task` from `process_course`: downloads through the
popup, extracts, and registers the produced media.  All exceptions are
caught at the task level (the task logs and returns).  Note that it never
touches the `rars` list. -/
def popup_download_task (penv : PEnv) (e : Entry) : POut :=
  match penv.parsed with
  | none => ⟨e, []⟩  -- downloads under a fallback name; no ledger updates
  | some (_, f) =>
    if replaceAll f ".rar" ".mp4" ∈ e.mp4s then ⟨e, []⟩
    else
      match penv.popupFetch with
      | some _ => ⟨e, []⟩  -- exception caught by the task's handler
      | none =>
        match (extract_rar penv.xenv f penv.extractDir).result with
        | .error _ => ⟨e, []⟩  -- exception caught by the task's handler
        | .ok _ =>
          if penv.mp4ExistsAfter then
            if replaceAll f ".rar" ".mp4" ∈ e.mp4s then ⟨e, []⟩
            else ⟨mp4sUpdated e (replaceAll f ".rar" ".mp4"),
                  [mp4sUpdated e (replaceAll f ".rar" ".mp4")]⟩
          else ⟨e, []⟩

/-! ## Concrete fixtures used by the witnesses and counterexamples -/

/-- A listing-entry fragment with an offline-marked link and the
parenthesized group from the end-to-end scenario. -/
def fragC2 : String :=
  "<a href=\"https://offline.sbu.ac.ir/x\">لینک آفلاین</a> (something، ۱۴ مهر ۱۴۰۲، ساعت ۱۰:۳۰ صبح)"

/-- A fragment whose time group carries an unrecognized period token. -/
def fragW : String :=
  "<a href=\"u\">آفلاین</a>(x، ۵ مهر ۱۴۰۰، ۲:۱۵ بعدازظهر)"

/-- A one-course ledger in the current shape. -/
def ledgerC1 : List (String × JVal) :=
  [("courseA", JVal.obj [("rars", .arr []), ("mp4s", .arr ["x.mp4"]),
    ("download_folder", .str ""), ("extract_folder", .str "")])]

/-- A fresh ledger entry for one course. -/
def entry0 : Entry := ⟨[], [], "", ""⟩

/-- An extractor environment where 7z is present and succeeds. -/
def xenvOK : XEnv := ⟨false, true, true, false, false, ["v.mp4"]⟩

/-- A popup-path environment: parse succeeded, fetch succeeded,
extraction succeeds and the media file is then present. -/
def penvOK : PEnv := ⟨some ("h", "f.rar"), none, xenvOK, [], true⟩

/-- An attempt where navigation sees the "being prepared" signal. -/
def tNotReady : TacticEnv :=
  ⟨none, true, none, none, none, none, false, none, false, none, none⟩

/-- An attempt where the first trigger saves the bytes and the secondary
offline link then completes. -/
def tSuccess : TacticEnv :=
  ⟨none, false, none, some (some "http://x"), none, none, false, none,
   false, none, none⟩

/-- An attempt that fails at navigation with a per-attempt reason. -/
def tFail (a : Nat) : TacticEnv :=
  ⟨some (toString a), false, none, none, none, none, false, none, false,
   none, none⟩

/-- Direct-path environment that sees the "being prepared" signal. -/
def denvNR : DLEnv := ⟨false, fun _ => tNotReady, xenvOK, [], false⟩

/-- Direct-path environment whose fetch succeeds on the first attempt. -/
def denvOK : DLEnv := ⟨false, fun _ => tSuccess, xenvOK, [], true⟩

/-- Direct-path environment where every attempt fails. -/
def denvERR : DLEnv := ⟨false, fun a => tFail a, xenvOK, [], false⟩

/-! # Theorems -/

/-- Helper: an unrecognized period token looks up to offset `0` in
`PERIOD_OFFSET`. -/
theorem periodOffset_unknown (p : String) (h1 : p ≠ "صبح") (h2 : p ≠ "ظهر")
    (h3 : p ≠ "عصر") (h4 : p ≠ "شب") : lookupD PERIOD_OFFSET p 0 = 0 := by
  have e1 : (("صبح" : String) == p) = false :=
    beq_eq_false_iff_ne.mpr (fun hh => h1 hh.symm)
  have e2 : (("ظهر" : String) == p) = false :=
    beq_eq_false_iff_ne.mpr (fun hh => h2 hh.symm)
  have e3 : (("عصر" : String) == p) = false :=
    beq_eq_false_iff_ne.mpr (fun hh => h3 hh.symm)
  have e4 : (("شب" : String) == p) = false :=
    beq_eq_false_iff_ne.mpr (fun hh => h4 hh.symm)
  simp [lookupD, PERIOD_OFFSET, List.find?, e1, e2, e3, e4]

/-- C2 counterexample: on the scenario fragment with index 3, `parse_li`
does not produce the archive name `"03_1402-07-14_10-30.rar"` claimed by
the spec — the year digits of the actual output are the Persian digits of
the source text, because `parse_li` interpolates the raw matched `year`
string into the filename without an `int()` conversion. -/
theorem parse_li_scenario_cex :
    (parse_li fragC2 3).map Prod.snd = some "03_۱۴۰۲-07-14_10-30.rar" ∧
    (parse_li fragC2 3).map Prod.snd ≠ some "03_1402-07-14_10-30.rar" := by
  constructor
  · rfl
  · intro h
    rw [show (parse_li fragC2 3).map Prod.snd = some "03_۱۴۰۲-07-14_10-30.rar"
          from rfl] at h
    exact absurd h (by decide)

/-- C2 (amended): the scenario fragment with index 3 resolves to the
archive name `"03_۱۴۰۲-07-14_10-30.rar"` (year kept as raw Persian-digit
text; index, day, hour and minute converted and zero-padded), and the
derived media name is `"03_۱۴۰۲-07-14_10-30.mp4"`. -/
theorem parse_li_scenario_persian_year :
    parse_li fragC2 3 =
      some ("https://offline.sbu.ac.ir/x", "03_۱۴۰۲-07-14_10-30.rar") ∧
    replaceAll "03_۱۴۰۲-07-14_10-30.rar" ".rar" ".mp4" =
      "03_۱۴۰۲-07-14_10-30.mp4" :=
  ⟨rfl, rfl⟩

/-- C6: loading a ledger in which every collection value is a bare list
upgrades every entry: `archivesFetched` (`rars`) empty, `mediaProduced`
(`mp4s`) equal to the original list, empty folder strings. -/
theorem legacy_upgrade (data : List (String × JVal))
    (h : ∀ kv ∈ data, kv.2.isArr = true) :
    load_downloaded data = data.map (fun kv => (kv.1, migrate_entry kv.2)) := by
  cases data with
  | nil => rfl
  | cons kv rest =>
    obtain ⟨k, v⟩ := kv
    have hv : v.isArr = true := h (k, v) (List.mem_cons_self _ _)
    simp [load_downloaded, hv]

/-- Witness for C6: the legacy shape of the spec example upgrades as
claimed. -/
theorem legacy_upgrade_witness :
    (∀ kv ∈ [(("courseA" : String), JVal.arr ["x.mp4"])], kv.2.isArr = true) ∧
    load_downloaded [("courseA", JVal.arr ["x.mp4"])] =
      [("courseA", JVal.obj [("rars", .arr []), ("mp4s", .arr ["x.mp4"]),
        ("download_folder", .str ""), ("extract_folder", .str "")])] := by
  have hh : ∀ kv ∈ [(("courseA" : String), JVal.arr ["x.mp4"])],
      kv.2.isArr = true := by
    intro kv h
    rcases List.mem_singleton.mp h with rfl
    rfl
  exact ⟨hh, legacy_upgrade _ hh⟩

/-- C9: `load_downloaded` decides the shape of the whole file from the
first value only: a list-shaped first value triggers the legacy upgrade of
every entry, any other first value returns the data unchanged (even when
later values are bare lists). -/
theorem load_first_value_decides :
    (∀ (k : String) (ls : List String) (rest : List (String × JVal)),
      load_downloaded ((k, .arr ls) :: rest) =
        ((k, JVal.arr ls) :: rest).map (fun kv => (kv.1, migrate_entry kv.2))) ∧
    (∀ (k : String) (v : JVal) (rest : List (String × JVal)),
      v.isArr = false → load_downloaded ((k, v) :: rest) = (k, v) :: rest) := by
  constructor
  · intro k ls rest
    simp [load_downloaded, JVal.isArr]
  · intro k v rest hv
    simp [load_downloaded, hv]

/-- Witness for C9: a dict-first mapping is returned unchanged even though
its second value is a bare list, and a list-first mapping migrates even its
dict-shaped second value. -/
theorem load_first_value_decides_witness :
    JVal.isArr (.obj []) = false ∧
    load_downloaded [("a", JVal.obj []), ("b", JVal.arr ["x.mp4"])] =
      [("a", JVal.obj []), ("b", JVal.arr ["x.mp4"])] ∧
    load_downloaded [("b", JVal.arr ["x.mp4"]), ("a", JVal.obj [])] =
      [("b", migrate_entry (JVal.arr ["x.mp4"])),
       ("a", migrate_entry (JVal.obj []))] :=
  ⟨rfl, load_first_value_decides.2 "a" (JVal.obj []) _ rfl,
   load_first_value_decides.1 "b" ["x.mp4"] _⟩

/-- C7: when the deterministically named target media file already exists
at the destination, `extract_rar` returns that path with zero extractor
invocations — so a second call with the target present never invokes the
extractor. -/
theorem extract_rar_short_circuit (env : XEnv) (rarName : String)
    (outDir : List String) (h : env.targetExists = true) :
    extract_rar env rarName outDir =
      ⟨.ok (outDir ++ [pyStem rarName ++ ".mp4"]), 0⟩ := by
  simp [extract_rar, h]

/-- Witness for C7 at a concrete archive and destination. -/
theorem extract_rar_short_circuit_witness :
    (XEnv.targetExists ⟨true, true, true, true, true, []⟩ = true) ∧
    extract_rar ⟨true, true, true, true, true, []⟩ "01_a.rar" ["extracted", "c"] =
      ⟨.ok ["extracted", "c", "01_a.mp4"], 0⟩ :=
  ⟨rfl, extract_rar_short_circuit _ "01_a.rar" ["extracted", "c"] rfl⟩

set_option maxRecDepth 8000 in
/-- C1 counterexample: persisting a one-course ledger over a previously
persisted empty ledger and crashing after one written character leaves the
file holding neither the pre-mutation content (`save_downloaded []`) nor
the post-mutation content — the write is not pre-or-post atomic. -/
theorem save_downloaded_atomicity_cex :
    save_downloaded_crash ledgerC1 1 ≠ save_downloaded [] ∧
    save_downloaded_crash ledgerC1 1 ≠ save_downloaded ledgerC1 := by
  constructor <;> decide

/-- C1 (amended): `save_downloaded` persists by truncating the target file
in place and writing the new serialization left to right (no
temp-file-then-replace); for every ledger whose serialization has at least
three characters — every non-empty ledger — and every prior file content,
some crash point leaves the file differing from both the pre- and the
post-mutation contents. -/
theorem save_downloaded_not_atomic (d : List (String × JVal)) (pre : List Char)
    (h : 3 ≤ (save_downloaded d).length) :
    ∃ k, k < (save_downloaded d).length ∧
      save_downloaded_crash d k ≠ pre ∧
      save_downloaded_crash d k ≠ save_downloaded d := by
  have l1 : (save_downloaded_crash d 1).length = 1 := by
    simp [save_downloaded_crash]
    omega
  have l2 : (save_downloaded_crash d 2).length = 2 := by
    simp [save_downloaded_crash]
    omega
  by_cases h1 : save_downloaded_crash d 1 = pre
  · refine ⟨2, by omega, ?_, ?_⟩
    · intro hh
      have : (1 : Nat) = 2 := by
        rw [← l1, ← l2, h1, hh]
      omega
    · intro hh
      have := congrArg List.length hh
      rw [l2] at this
      omega
  · refine ⟨1, by omega, h1, ?_⟩
    intro hh
    have := congrArg List.length hh
    rw [l1] at this
    omega

set_option maxRecDepth 8000 in
/-- Witness for C1 (amended) at the concrete one-course ledger over a
previously persisted empty ledger. -/
theorem save_downloaded_not_atomic_witness :
    3 ≤ (save_downloaded ledgerC1).length ∧
    ∃ k, k < (save_downloaded ledgerC1).length ∧
      save_downloaded_crash ledgerC1 k ≠ (save_downloaded []) ∧
      save_downloaded_crash ledgerC1 k ≠ save_downloaded ledgerC1 :=
  ⟨by decide, save_downloaded_not_atomic ledgerC1 (save_downloaded []) (by decide)⟩

/-- C10: whenever the time sub-parse of `parse_li` yields a period token
that is none of the four known tokens, the parse still succeeds and the
period offset applied is `0`, so the hour written into the filename is the
parsed hour modulo 12. -/
theorem unknown_period_offset_zero (li : String) (idx : Nat) (href0 : String)
    (parts : List String) (day monName year hour minute period : String)
    (hhref : hrefSearch li.toList = some href0)
    (hdt : findDt (findParens li.toList) = some parts)
    (hlen : 3 ≤ parts.length)
    (hdate : searchDate (parts.getD 1 "").toList = some (day, monName, year))
    (htime : searchTime (parts.getD 2 "").toList = some (hour, minute, period))
    (h1 : period ≠ "صبح") (h2 : period ≠ "ظهر")
    (h3 : period ≠ "عصر") (h4 : period ≠ "شب") :
    parse_li li idx = some (absHref href0,
      mkFilename idx year (lookupD PERSIAN_MONTHS monName "00") (pyInt day)
        (pyInt hour % 12) (pyInt minute)) := by
  have hoff := periodOffset_unknown period h1 h2 h3 h4
  have hne : parts ≠ [] := by
    rintro rfl
    simp at hlen
  have hl : ¬ parts.length < 3 := by omega
  simp only [String.toList] at hhref hdt hdate htime
  simp only [List.getD, List.get?_eq_getElem?] at hdate htime
  simp [parse_li, hhref, hdt, hdate, htime, hne, hl, hoff, String.toList,
    List.getD]

/-- Witness for C10: the unrecognized token `بعدازظهر` (which is not a key
of the period table even though it contains one as a substring) gets
offset `0`: `۲:۱۵ بعدازظهر` becomes hour `02`. -/
theorem unknown_period_offset_zero_witness :
    ("بعدازظهر" : String) ≠ "صبح" ∧
    parse_li fragW 1 = some ("u", "01_۱۴۰۰-07-05_02-15.rar") :=
  ⟨by decide,
   unknown_period_offset_zero fragW 1 "u" ["x", "۵ مهر ۱۴۰۰", "۲:۱۵ بعدازظهر"]
     "۵" "مهر" "۱۴۰۰" "۲" "۱۵" "بعدازظهر" rfl rfl (by decide) rfl rfl
     (by decide) (by decide) (by decide) (by decide)⟩

/-- Helper: an attempt whose navigation succeeds onto a "being prepared"
page returns immediately, regardless of all the tactic fields. -/
theorem attemptRun_notReady (t : TacticEnv) (hg : t.gotoErr = none)
    (hn : t.notReady = true) : attemptRun t = (.notReadyRet, false) := by
  simp [attemptRun, hg, hn]

/-- C4: when the direct-navigation path loads a page whose body contains
the "content is being prepared" signal on the first attempt,
`download_and_extract` returns at once with no ledger mutation, the retry
loop opens and closes exactly one page (zero retries), and — since the
statement holds for every environment agreeing on those two fields of
attempt 0 — no further fallback tactic of that attempt and no later
attempt is ever consulted. -/
theorem not_ready_terminal (denv : DLEnv) (e : Entry) (f m : String)
    (hm : denv.mp4Exists = false)
    (hg : (denv.attempts 0).gotoErr = none)
    (hn : (denv.attempts 0).notReady = true) :
    download_and_extract denv e f m = ⟨e, [], .notReady⟩ ∧
    download_retry denv.attempts = ([.openPage 0, .closePage 0], .notReady) := by
  have h0 := attemptRun_notReady _ hg hn
  have hr : download_retry denv.attempts =
      ([.openPage 0, .closePage 0], .notReady) := by
    rw [download_retry]
    simp [runRetryAux, h0]
  exact ⟨by simp [download_and_extract, hm, hr], hr⟩

/-- Witness for C4 at a concrete environment. -/
theorem not_ready_terminal_witness :
    denvNR.mp4Exists = false ∧
    download_and_extract denvNR entry0 "f.rar" "f.mp4" =
      ⟨entry0, [], .notReady⟩ :=
  ⟨rfl, (not_ready_terminal denvNR entry0 "f.rar" "f.mp4" rfl rfl rfl).1⟩

/-- C5: when all three attempts of the direct-download loop raise,
`max_retries = 3` total invocations are made, the attempt page of each
attempt is closed before the next attempt's page is opened, the last
failure is re-raised verbatim, and `download_and_extract` surfaces it with
no ledger mutation. -/
theorem retry_budget_three (denv : DLEnv) (e : Entry) (f m : String)
    (r0 r1 r2 : String)
    (h0 : (attemptRun (denv.attempts 0)).1 = .raised r0)
    (h1 : (attemptRun (denv.attempts 1)).1 = .raised r1)
    (h2 : (attemptRun (denv.attempts 2)).1 = .raised r2) :
    download_retry denv.attempts =
      ([.openPage 0, .closePage 0, .openPage 1, .closePage 1,
        .openPage 2, .closePage 2], .err r2) ∧
    (denv.mp4Exists = false →
      download_and_extract denv e f m = ⟨e, [], .raised r2⟩) := by
  have s2 : runRetryAux denv.attempts 2 1 =
      ([Ev.openPage 2, Ev.closePage 2], .err r2) := by
    simp only [runRetryAux]
    split <;> simp_all
  have s1 : runRetryAux denv.attempts 1 2 =
      ([Ev.openPage 1, Ev.closePage 1, Ev.openPage 2, Ev.closePage 2],
       .err r2) := by
    simp only [runRetryAux]
    split <;> simp_all
  have hr : download_retry denv.attempts =
      ([.openPage 0, .closePage 0, .openPage 1, .closePage 1,
        .openPage 2, .closePage 2], .err r2) := by
    rw [download_retry]
    simp only [runRetryAux]
    split <;> simp_all
  refine ⟨hr, fun hm => ?_⟩
  simp [download_and_extract, hm, hr]

/-- Witness for C5: three goto failures with distinct reasons. -/
theorem retry_budget_three_witness :
    (attemptRun (denvERR.attempts 0)).1 = .raised "0" ∧
    download_retry denvERR.attempts =
      ([.openPage 0, .closePage 0, .openPage 1, .closePage 1,
        .openPage 2, .closePage 2], .err "2") ∧
    download_and_extract denvERR entry0 "f.rar" "f.mp4" =
      ⟨entry0, [], .raised "2"⟩ := by
  have h := retry_budget_three denvERR entry0 "f.rar" "f.mp4" "0" "1" "2"
    rfl rfl rfl
  exact ⟨rfl, h.1, h.2 rfl⟩

/-- Helper: an attempt can only end in `ok` with the archive bytes saved —
every path of the tactic chain that reaches `break` has completed some
`trigger_download_on_page` call on `rar_path`. -/
theorem attemptRun_ok_saved (t : TacticEnv) (b : Bool)
    (h : attemptRun t = (.ok, b)) : b = true := by
  unfold attemptRun fallbackAnchors at h
  repeat' split at h
  all_goals simp_all

/-- Helper: if the retry loop reports a completed download, the saved flag
is true. -/
theorem runRetryAux_saved (env : Nat → TacticEnv) :
    ∀ fuel a s, (runRetryAux env a fuel).2 = .downloaded s → s = true := by
  intro fuel
  induction fuel with
  | zero =>
    intro a s h
    simp [runRetryAux] at h
  | succ n ih =>
    intro a s h
    simp only [runRetryAux] at h
    split at h
    · simp at h
    · rename_i heq
      simp at h
      refine attemptRun_ok_saved (env a) s ?_
      rw [← h, ← heq]
    · split at h
      · simp at h
      · exact ih (a + 1) s (by simpa using h)

/-- Helper: the whole retry loop only reports `downloaded` with the bytes
saved to `rar_path`. -/
theorem download_retry_saved (env : Nat → TacticEnv) (s : Bool)
    (h : (download_retry env).2 = .downloaded s) : s = true :=
  runRetryAux_saved env 3 0 s h

/-- Helper: `rarsUpdated` preserves `mp4s`. -/
theorem rarsUpdated_mp4s (e : Entry) (f : String) :
    (rarsUpdated e f).mp4s = e.mp4s := by
  unfold rarsUpdated
  split <;> rfl

/-- Helper: membership after the add-if-absent archive registration. -/
theorem rarsUpdated_mem (e : Entry) (f x : String)
    (hx : x ∈ (rarsUpdated e f).rars) : x ∈ e.rars ∨ x = f := by
  unfold rarsUpdated at hx
  split at hx
  · exact Or.inl hx
  · simpa [List.mem_append] using hx

/-- Helper: every archive name in the ledger entry after
`download_and_extract` was either already there or is this item's filename
recorded after a completed (bytes-saved) fetch. -/
theorem download_rars_guard (denv : DLEnv) (e : Entry) (f m x : String)
    (hx : x ∈ (download_and_extract denv e f m).entry.rars) :
    x ∈ e.rars ∨
      (x = f ∧ (download_retry denv.attempts).2 = .downloaded true) := by
  unfold download_and_extract at hx
  split at hx
  · split at hx
    · exact Or.inl hx
    · exact Or.inl hx
  · split at hx
    · exact Or.inl hx
    · exact Or.inl hx
    · rename_i s heq
      have hs : s = true := download_retry_saved denv.attempts s heq
      subst hs
      have he1 : x ∈ (rarsUpdated e f).rars := by
        split at hx
        · exact hx
        · split at hx
          · split at hx
            · exact hx
            · exact hx
          · exact hx
      rcases rarsUpdated_mem e f x he1 with h | h
      · exact Or.inl h
      · exact Or.inr ⟨h, heq⟩

/-- Helper: every media name in the ledger entry after
`download_and_extract` was either already there or is this item's media
name, added only after one of the two `exists()` checks succeeded. -/
theorem download_mp4s_guard (denv : DLEnv) (e : Entry) (f m x : String)
    (hx : x ∈ (download_and_extract denv e f m).entry.mp4s) :
    x ∈ e.mp4s ∨
      (x = m ∧ (denv.mp4Exists = true ∨ denv.mp4ExistsAfter = true)) := by
  unfold download_and_extract at hx
  split at hx
  · rename_i hEx
    split at hx
    · exact Or.inl hx
    · have h' : x ∈ e.mp4s ∨ x = m := by
        simpa [mp4sUpdated, List.mem_append] using hx
      rcases h' with h | h
      · exact Or.inl h
      · exact Or.inr ⟨h, Or.inl hEx⟩
  · split at hx
    · exact Or.inl hx
    · exact Or.inl hx
    · split at hx
      · have h' : x ∈ (rarsUpdated e f).mp4s := hx
        rw [rarsUpdated_mp4s] at h'
        exact Or.inl h'
      · split at hx
        · rename_i hAfter
          split at hx
          · have h' : x ∈ (rarsUpdated e f).mp4s := hx
            rw [rarsUpdated_mp4s] at h'
            exact Or.inl h'
          · have h' : x ∈ (rarsUpdated e f).mp4s ++ [m] := hx
            rw [rarsUpdated_mp4s] at h'
            rcases List.mem_append.mp h' with h | h
            · exact Or.inl h
            · exact Or.inr ⟨List.mem_singleton.mp h, Or.inr hAfter⟩
        · have h' : x ∈ (rarsUpdated e f).mp4s := hx
          rw [rarsUpdated_mp4s] at h'
          exact Or.inl h'

/-- Helper: the popup path never touches the fetched-archives list. -/
theorem popup_rars_unchanged (penv : PEnv) (e : Entry) :
    (popup_download_task penv e).entry.rars = e.rars := by
  unfold popup_download_task
  repeat' split
  all_goals rfl

/-- Helper: the popup path adds media names only when the post-extraction
`exists()` check succeeded. -/
theorem popup_mp4s_guard (penv : PEnv) (e : Entry) (y : String)
    (hy : y ∈ (popup_download_task penv e).entry.mp4s) :
    y ∈ e.mp4s ∨ penv.mp4ExistsAfter = true := by
  unfold popup_download_task at hy
  split at hy
  · exact Or.inl hy
  · split at hy
    · exact Or.inl hy
    · split at hy
      · exact Or.inl hy
      · split at hy
        · exact Or.inl hy
        · split at hy
          · rename_i hAfter
            exact Or.inr hAfter
          · exact Or.inl hy

/-- C8: ledger additions are guarded by on-disk evidence — any archive name
present after `download_and_extract` that was not there before is this
item's filename and the fetch completed with the bytes saved
(`downloaded true`); any media name not there before was added only after
an `exists()` check on the extracted file; the popup path never grows
`rars` and grows `mp4s` only after its own `exists()` check. -/
theorem ledger_additions_guarded (denv : DLEnv) (e : Entry) (f m x : String)
    (penv : PEnv) (e2 : Entry) (y : String) :
    (x ∈ (download_and_extract denv e f m).entry.rars →
      x ∈ e.rars ∨
        (x = f ∧ (download_retry denv.attempts).2 = .downloaded true)) ∧
    (x ∈ (download_and_extract denv e f m).entry.mp4s →
      x ∈ e.mp4s ∨
        (x = m ∧ (denv.mp4Exists = true ∨ denv.mp4ExistsAfter = true))) ∧
    (popup_download_task penv e2).entry.rars = e2.rars ∧
    (y ∈ (popup_download_task penv e2).entry.mp4s →
      y ∈ e2.mp4s ∨ penv.mp4ExistsAfter = true) :=
  ⟨download_rars_guard denv e f m x, download_mp4s_guard denv e f m x,
   popup_rars_unchanged penv e2, popup_mp4s_guard penv e2 y⟩

/-- Witness for C8: in a run that fetches `f.rar` into an empty entry, the
new archive membership is justified by a completed, bytes-saved fetch. -/
theorem ledger_additions_guarded_witness :
    "f.rar" ∈ entry0.rars ∨
      ("f.rar" = "f.rar" ∧
        (download_retry denvOK.attempts).2 = .downloaded true) :=
  (ledger_additions_guarded denvOK entry0 "f.rar" "f.mp4" "f.rar"
    penvOK entry0 "y").1 (by decide)

/-- C3 counterexample: on the popup-click path, an item whose archive fetch
completes (`popupFetch = none`) and whose extraction even succeeds ends
with the archive name absent from the fetched-archives list — the popup
path never records `rars`, contradicting the claim that every fetch path
records the fetched archive. -/
theorem popup_path_never_records_rar_cex :
    penvOK.popupFetch = none ∧
    popup_download_task penvOK entry0 =
      ⟨⟨[], ["f.mp4"], "", ""⟩, [⟨[], ["f.mp4"], "", ""⟩]⟩ ∧
    "f.rar" ∉ (popup_download_task penvOK entry0).entry.rars := by
  exact ⟨rfl, by decide, by decide⟩

/-- Helper: `download_and_extract` after `mp4Exists = false` and a
completed fetch, expressed without the retry match. -/
theorem download_and_extract_downloaded (denv : DLEnv) (e : Entry)
    (f m : String) (hm : denv.mp4Exists = false) (s : Bool)
    (hd : (download_retry denv.attempts).2 = .downloaded s) :
    download_and_extract denv e f m =
      match (extract_rar denv.xenv f denv.extractDir).result with
      | .error err =>
        ⟨rarsUpdated e f, rarsSaves e f, .raised (xerrStr err)⟩
      | .ok _ =>
        if denv.mp4ExistsAfter then
          if m ∈ (rarsUpdated e f).mp4s then
            ⟨rarsUpdated e f, rarsSaves e f, .returned⟩
          else
            ⟨mp4sUpdated (rarsUpdated e f) m,
             rarsSaves e f ++ [mp4sUpdated (rarsUpdated e f) m], .returned⟩
        else ⟨rarsUpdated e f, rarsSaves e f, .returned⟩ := by
  unfold download_and_extract
  rw [if_neg (by simp [hm])]
  split <;> simp_all

/-- C3 (amended): on the direct-navigation path, a completed fetch into an
entry not yet holding the archive records the archive name in `rars` and
persists a snapshot containing it — whatever the extraction outcome, so
also when extraction fails; the popup-click path, by contrast, never
records anything in `rars`. -/
theorem fetch_record_direct_only (denv : DLEnv) (e : Entry) (f m : String)
    (hm : denv.mp4Exists = false)
    (hd : (download_retry denv.attempts).2 = .downloaded true)
    (hf : f ∉ e.rars) :
    (f ∈ (download_and_extract denv e f m).entry.rars ∧
      ∃ s ∈ (download_and_extract denv e f m).saves, f ∈ s.rars) ∧
    ∀ (penv : PEnv) (e2 : Entry),
      (popup_download_task penv e2).entry.rars = e2.rars := by
  refine ⟨?_, fun penv e2 => popup_rars_unchanged penv e2⟩
  have hfe : f ∈ (rarsUpdated e f).rars := by
    unfold rarsUpdated
    rw [if_neg hf]
    exact List.mem_append_right _ (List.mem_singleton.mpr rfl)
  have hsv : rarsSaves e f = [rarsUpdated e f] := by
    unfold rarsSaves
    rw [if_neg hf]
  rw [download_and_extract_downloaded denv e f m hm true hd]
  split
  · exact ⟨hfe, rarsUpdated e f, by rw [hsv]; exact List.mem_singleton.mpr rfl,
      hfe⟩
  · split
    · split
      · exact ⟨hfe, rarsUpdated e f,
          by rw [hsv]; exact List.mem_singleton.mpr rfl, hfe⟩
      · exact ⟨hfe, rarsUpdated e f,
          by rw [hsv]; exact List.mem_cons_self _ _, hfe⟩
    · exact ⟨hfe, rarsUpdated e f,
        by rw [hsv]; exact List.mem_singleton.mpr rfl, hfe⟩

/-- Witness for C3 (amended): a concrete direct-path run records the
fetched archive. -/
theorem fetch_record_direct_only_witness :
    denvOK.mp4Exists = false ∧
    (download_retry denvOK.attempts).2 = .downloaded true ∧
    "f.rar" ∈ (download_and_extract denvOK entry0 "f.rar" "f.mp4").entry.rars :=
  ⟨rfl, by decide,
   ((fetch_record_direct_only denvOK entry0 "f.rar" "f.mp4" rfl (by decide)
      (by decide)).1).1⟩

end LMS
